import Mathlib

/-!
Verification model of the `modbus2mqtt/lxc-manager` execution engine
(`src/backend/src/ve-execution.mts` together with the output processor in
`src/backend/src/proxmoxconftypes.mts`).

The TypeScript classes `VeExecution` and `OutputProcessor` are shallowly
embedded as pure Lean functions.  Effects are made explicit:

* remote process spawning (`spawnAsync`) is an oracle `Nat → Nat → SpawnResult`
  giving, for each step index and each spawn performed inside that step, the
  observed `stdout`/`stderr`/exit code;
* `fs.readFileSync` is an oracle `String → Option String` (a `none` models the
  thrown ENOENT error);
* the host registry (`StorageContext.getVMContextByHostname`) is an oracle
  `String → Option VMCtx`;
* `this.emit("message", …)` calls append to an event list; the `finished`
  signal is a field of the run result; spawns and retry sleeps are recorded in
  an action trace.

Modelling conventions, noted once here:

* JS strings/numbers/booleans become `Value`; only integer JSON numbers are
  modelled (a float literal is treated as unparseable input);
* string scanning (`trim`, `indexOf`/`slice`, `split`) is re-implemented over
  character lists so that closed computations reduce inside the kernel;
* streaming partial events (`partial: true`, emitted from the `onStdout` /
  `onStderr` callbacks with exit code −1) are not modelled: only final events
  appear in the trace, and message sequence indices are list positions;
* the model fixes `sshCommand = "ssh"` (the production configuration), so
  `OutputProcessor.processLocalFileValue` leaves every value unchanged and
  `runOnLxc` wraps the payload in an `lxc-attach` remote command;
* `NaN` results of JS numeric conversions are modelled as `Option.none`.
-/

/-- One JS primitive value (`string | number | boolean`), the value type of the
`inputs`, `outputs` and `defaults` scopes of `VeExecution`. -/
inductive Value where
  | str (s : String)
  | num (n : Int)
  | bool (b : Bool)
deriving DecidableEq, Repr

/-- A JS `Map`/record: an insertion-ordered association list. -/
abbrev Scope := List (String × Value)

/-- `Map.get` / property read. -/
def Scope.get? (sc : Scope) (k : String) : Option Value :=
  (sc.find? (fun p => p.1 = k)).map (fun p => p.2)

/-- `Map.set` / property write: updates an existing key in place (keeping its
position, as JS `Map` iteration order does) or appends a new one. -/
def Scope.set (sc : Scope) (k : String) (v : Value) : Scope :=
  if sc.any (fun p => p.1 = k) then
    sc.map (fun p => if p.1 = k then (k, v) else p)
  else
    sc ++ [(k, v)]

/-- JS `String(v)` on a scope value. -/
def valueToString : Value → String
  | .str s => s
  | .num n => toString n
  | .bool b => Bool.rec "false" "true" b

/-- JS truthiness of a scope value (`"" `, `0` and `false` are falsy). -/
def valueTruthy : Value → Bool
  | .str s => s ≠ ""
  | .num n => n ≠ 0
  | .bool b => b

/-! ### Character-list string utilities

The JS string operations used by the source (`trim`, `indexOf` + `slice`,
`split(":")`, prefix tests) are modelled over `List Char` so that concrete
computations are kernel-reducible. -/

/-- JS whitespace for `String.prototype.trim`. -/
def isWsChar (c : Char) : Bool :=
  c = ' ' ∨ c = '\n' ∨ c = '\t' ∨ c = '\r'

/-- Drop leading whitespace. -/
def dropWs : List Char → List Char
  | [] => []
  | c :: cs => if isWsChar c then dropWs cs else c :: cs

/-- `String.prototype.trim`. -/
def jsTrim (s : String) : String :=
  String.mk ((dropWs (dropWs s.toList.reverse).reverse))

/-- If `pat` starts the list, return the remainder. -/
def dropPat? : List Char → List Char → Option (List Char)
  | [], s => some s
  | _ :: _, [] => none
  | p :: ps, c :: cs => if p = c then dropPat? ps cs else none

/-- Split a character list on every occurrence of the nonempty pattern
`p :: ps` (the semantics of `String.prototype.split` with a string
separator).  The `fuel` argument makes the recursion structural; every call
site supplies the list length, which suffices because each recursive call
consumes at least one character. -/
def splitPatGo (p : Char) (ps : List Char) : Nat → List Char → List (List Char)
  | _, [] => [[]]
  | 0, rest => [rest]
  | fuel + 1, c :: cs =>
    match dropPat? (p :: ps) (c :: cs) with
    | some rest => [] :: splitPatGo p ps fuel rest
    | none =>
      match splitPatGo p ps fuel cs with
      | [] => [[c]]
      | g :: gs => (c :: g) :: gs

/-- `s.split(pat)` for a nonempty string pattern; with an empty pattern the
whole string is returned unsplit (that case is never used by the source). -/
def splitStr (pat : String) (s : String) : List String :=
  match pat.toList with
  | [] => [s]
  | p :: ps => (splitPatGo p ps s.toList.length s.toList).map String.mk

/-- Whether `pat` occurs inside `s` (JS `String.prototype.includes`). -/
def containsStr (s pat : String) : Bool :=
  (splitStr pat s).length ≥ 2

/-- JS `String.prototype.startsWith`. -/
def startsWithStr (s pat : String) : Bool :=
  (dropPat? pat.toList s.toList).isSome

/-- `String.prototype.join(sep)` over the pieces. -/
def joinWith (sep : String) : List String → String
  | [] => ""
  | [x] => x
  | x :: xs => x ++ sep ++ joinWith sep xs

/-! ### JSON values and `JSON.parse`

`JSON.parse` is modelled by a fuel-bounded recursive-descent parser over the
character list.  Restrictions (each makes the affected input parse-fail, which
the model treats like any other malformed JSON): numbers must be integers, and
strings support only the `\"` and `\\` escapes. -/

/-- A parsed JSON value. -/
inductive Json where
  | null
  | bool (b : Bool)
  | num (n : Int)
  | str (s : String)
  | arr (xs : List Json)
  | obj (fs : List (String × Json))

/-- Field lookup on a JSON object (the JS `x.field` / `"field" in x` read);
`none` models `undefined` / a non-object receiver. -/
def jGet : Json → String → Option Json
  | .obj fs, k => (fs.find? (fun p => p.1 = k)).map (fun p => p.2)
  | _, _ => none

/-- The opening-brace and closing-brace characters. -/
def lbraceChar : Char := Char.ofNat 123

def rbraceChar : Char := Char.ofNat 125

/-- Parse a JSON string body (after the opening quote); only the `\"` and `\\`
escapes are supported. -/
def parseStrGo (acc : List Char) : List Char → Option (String × List Char)
  | [] => none
  | '"' :: rest => some (String.mk acc.reverse, rest)
  | '\\' :: '"' :: rest => parseStrGo ('"' :: acc) rest
  | '\\' :: '\\' :: rest => parseStrGo ('\\' :: acc) rest
  | '\\' :: _ => none
  | c :: rest => parseStrGo (c :: acc) rest

/-- Parse a maximal nonempty digit run. -/
def parseDigits (acc : Nat) (found : Bool) : List Char → Option (Nat × List Char)
  | [] => if found then some (acc, []) else none
  | c :: cs =>
    if c.isDigit then
      parseDigits (acc * 10 + (c.toNat - 48)) true cs
    else
      if found then some (acc, c :: cs) else none

mutual

/-- Parse one JSON value. -/
def parseJ : Nat → List Char → Option (Json × List Char)
  | 0, _ => none
  | fuel + 1, cs =>
    match dropWs cs with
    | 'n' :: 'u' :: 'l' :: 'l' :: rest => some (.null, rest)
    | 't' :: 'r' :: 'u' :: 'e' :: rest => some (.bool true, rest)
    | 'f' :: 'a' :: 'l' :: 's' :: 'e' :: rest => some (.bool false, rest)
    | '"' :: rest =>
      match parseStrGo [] rest with
      | some (s, r) => some (.str s, r)
      | none => none
    | '[' :: rest =>
      match dropWs rest with
      | ']' :: r2 => some (.arr [], r2)
      | other => match parseArrElems fuel other with
                 | some (xs, r2) => some (.arr xs, r2)
                 | none => none
    | '-' :: rest =>
      match parseDigits 0 false rest with
      | some (n, r) => some (.num (-(n : Int)), r)
      | none => none
    | c :: rest =>
      if c = lbraceChar then
        match dropWs rest with
        | d :: r2 =>
          if d = rbraceChar then some (.obj [], r2)
          else match parseObjFields fuel (d :: r2) with
               | some (fs, r3) => some (.obj fs, r3)
               | none => none
        | [] => none
      else if c.isDigit then
        match parseDigits 0 false (c :: rest) with
        | some (n, r) => some (.num (n : Int), r)
        | none => none
      else none
    | [] => none

/-- Parse comma-separated array elements up to the closing bracket. -/
def parseArrElems : Nat → List Char → Option (List Json × List Char)
  | 0, _ => none
  | fuel + 1, cs =>
    match parseJ fuel cs with
    | none => none
    | some (x, rest) =>
      match dropWs rest with
      | ',' :: r2 => match parseArrElems fuel r2 with
                     | some (xs, r3) => some (x :: xs, r3)
                     | none => none
      | ']' :: r2 => some ([x], r2)
      | _ => none

/-- Parse comma-separated object fields up to the closing brace. -/
def parseObjFields : Nat → List Char → Option (List (String × Json) × List Char)
  | 0, _ => none
  | fuel + 1, cs =>
    match dropWs cs with
    | '"' :: rest =>
      match parseStrGo [] rest with
      | none => none
      | some (k, r1) =>
        match dropWs r1 with
        | ':' :: r2 =>
          match parseJ fuel r2 with
          | none => none
          | some (v, r3) =>
            match dropWs r3 with
            | ',' :: r4 => match parseObjFields fuel r4 with
                           | some (fs, r5) => some ((k, v) :: fs, r5)
                           | none => none
            | d :: r4 =>
              if d = rbraceChar then some ([(k, v)], r4) else none
            | [] => none
        | _ => none
    | _ => none

end

/-- `JSON.parse`: `none` models a thrown `SyntaxError`. -/
def jsonParse (s : String) : Option Json :=
  match parseJ (s.toList.length + 1) s.toList with
  | some (j, rest) => if dropWs rest = [] then some j else none
  | none => none

/-- Convert a primitive JSON value to a scope `Value`. -/
def jsonPrim? : Json → Option Value
  | .str s => some (.str s)
  | .num n => some (.num n)
  | .bool b => some (.bool b)
  | _ => none

/-- JS strict equality between a scope value and a JSON value
(`vmctx.data.pve === found.pve`). -/
def valueEqJson : Value → Json → Bool
  | .str s, .str t => s = t
  | .num n, .num m => n = m
  | .bool a, .bool b => a = b
  | _, _ => false

/-- `Number(string)` on a full string: the whole (trimmed) text must be an
integer literal; `none` models `NaN`.  (Float literals are out of scope.) -/
def strToInt? (s : String) : Option Int :=
  match s.toList with
  | '-' :: rest =>
    match parseDigits 0 false rest with
    | some (n, []) => some (-(n : Int))
    | _ => none
  | l =>
    match parseDigits 0 false l with
    | some (n, []) => some ((n : Int))
    | _ => none

/-- JS `Number(j)` for the conversions performed in `executeOnHost`
(`Number(found.vmid)`); `none` models `NaN`. -/
def jsNumber : Json → Option Int
  | .null => some 0
  | .bool b => some (Bool.rec 0 1 b)
  | .num n => some n
  | .str s => let t := jsTrim s
              if t = "" then some 0 else strToInt? t
  | _ => none

/-- JS `Number(v)` on a scope value. -/
def jsNumberV : Value → Option Int
  | .num n => some n
  | .bool b => some (Bool.rec 0 1 b)
  | .str s => let t := jsTrim s
              if t = "" then some 0 else strToInt? t

/-- JS `Number.parseInt(String(v), 10)`: leading whitespace, an optional sign
and then a maximal digit run; `none` models `NaN`. -/
def jsParseIntV (v : Value) : Option Int :=
  match dropWs (valueToString v).toList with
  | '-' :: rest => (parseDigits 0 false rest).map (fun p => -(p.1 : Int))
  | '+' :: rest => (parseDigits 0 false rest).map (fun p => ((p.1 : Nat) : Int))
  | l => (parseDigits 0 false l).map (fun p => ((p.1 : Nat) : Int))

/-- JS `x || dflt` on an optional string (both `undefined` and `""` fall back). -/
def jsOr (o : Option String) (d : String) : String :=
  match o with
  | some s => if s = "" then d else s
  | none => d

/-- The string JS interpolation produces for an optional value (`undefined`
when absent). -/
def jsShow (o : Option String) : String :=
  match o with
  | some s => s
  | none => "undefined"

/-! ### Commands, spawn results, events and execution state -/

/-- A `properties` payload value: a primitive, or anything else (the source
only stores `string | number | boolean` values and silently ignores the
rest). -/
inductive PropVal where
  | prim (v : Value)
  | composite
deriving DecidableEq

/-- One `{id, value}` property entry. -/
structure PropEntry where
  id : String
  value : Option PropVal
deriving DecidableEq

/-- The `properties` field of a command: a single entry or an array. -/
inductive Props where
  | one (e : PropEntry)
  | many (es : List PropEntry)
deriving DecidableEq

/-- An `ICommand` as consumed by `VeExecution.run`. -/
structure Cmd where
  name : Option String := none
  description : Option String := none
  execute_on : Option String := none
  script : Option String := none
  command : Option String := none
  properties : Option Props := none
deriving DecidableEq

/-- The observable outcome of one `spawnAsync` call. -/
structure SpawnResult where
  stdout : String
  stderr : String
  exitCode : Int
deriving DecidableEq

/-- One externally visible action of the engine: a spawned remote session
(recording the step index, the payload text, the optional remote command
wrapper and the observed result) or a retry backoff sleep. -/
inductive Act where
  | spawn (stepIdx : Nat) (input : String) (remote : Option (List String)) (r : SpawnResult)
  | sleep (ms : Nat)
deriving DecidableEq

/-- A final (non-partial) emitted progress event. -/
structure Event where
  command : Option String
  stderr : String
  result : Option String
  exitCode : Int
  execute_on : Option String := none
  finished : Bool := false
deriving DecidableEq

/-- The `IVeExecuteMessage` value returned by `runOnVeHost`. -/
structure Msg where
  command : Option String
  commandtext : String
  stderr : String
  result : Option String
  exitCode : Int
  error : Option String := none
deriving DecidableEq

/-- The mutable fields of a `VeExecution` object (plus the event and action
traces and the per-step spawn counter used to address the spawn oracle). -/
structure ExecState where
  inputs : Scope
  outputs : Scope
  defaults : Scope
  outputsRaw : Option Scope
  outputsRawResult : Option Scope
  events : List Event
  acts : List Act
  spawnInStep : Nat
deriving DecidableEq

/-- `this.emit("message", e)` for a final event. -/
def ExecState.emit (st : ExecState) (e : Event) : ExecState :=
  { st with events := st.events ++ [e] }

/-- A host-registry entry (`StorageContext.getVMContextByHostname` result):
the numeric-or-string container id and the recorded host data. -/
structure VMCtx where
  vmid : Value
  data : Scope
deriving DecidableEq

/-- The external world of one run: the spawn oracle (step index ×
spawn-within-step index), the file system, the host registry, the hypervisor
host name and the banner-stripping marker injected before each payload. -/
structure Env where
  w : Nat → Nat → SpawnResult
  files : String → Option String
  registry : String → Option VMCtx
  host : String
  marker : String

/-! ### Variable Resolver

Modelled from the spec: the resolver implementation (`variable-resolver.mts`)
is not part of the provided sources — only its call sites are.  Spec §4.1:
every `{{name}}` token is replaced, single-pass, by the string form of the
first defined value in precedence order override context → outputs → inputs →
defaults, and an undefined name yields the literal sentinel `NOT_DEFINED`. -/

/-- Modelled from the spec: resolve one token name against the layered
scopes (override context first, then outputs, inputs, defaults); an undefined
name yields the sentinel. -/
def resolveName (ctx outs ins defs : Scope) (n : String) : String :=
  match ctx.get? n with
  | some v => valueToString v
  | none =>
    match outs.get? n with
    | some v => valueToString v
    | none =>
      match ins.get? n with
      | some v => valueToString v
      | none =>
        match defs.get? n with
        | some v => valueToString v
        | none => "NOT_DEFINED"

/-- Modelled from the spec: replace every `\x7b\x7bname\x7d\x7d` token in `s`
using `resolve`; a `\x7b\x7b` without a closing `\x7d\x7d` is left as is, and
replacement is single-pass (resolved values are not re-scanned). -/
def substTokens (resolve : String → String) (s : String) : String :=
  match splitStr "\x7b\x7b" s with
  | [] => s
  | first :: rest =>
    first ++ String.join (rest.map (fun piece =>
      match splitStr "\x7d\x7d" piece with
      | [] => "\x7b\x7b" ++ piece
      | [only] => "\x7b\x7b" ++ only
      | name :: tailPieces => resolve name ++ joinWith "\x7d\x7d" tailPieces))

/-- `VariableResolver.replaceVars` as wired up by `VeExecution` (outputs →
inputs → defaults). -/
def replaceVars (st : ExecState) (s : String) : String :=
  substTokens (resolveName [] st.outputs st.inputs st.defaults) s

/-- `VariableResolver.replaceVarsWithContext`: an explicit override map wins
over all three scopes. -/
def replaceVarsWithContext (ctx : Scope) (st : ExecState) (s : String) : String :=
  substTokens (resolveName ctx st.outputs st.inputs st.defaults) s

/-! ### Output Protocol Codec (`OutputProcessor.parseAndUpdateOutputs`) -/

/-- `OutputProcessor.processLocalFileValue`.  The model fixes
`sshCommand = "ssh"` (remote execution), where the source keeps any
`local:`-prefixed value untouched for the remote host, i.e. the function is
the identity. -/
def processLocalFileValue (v : Value) : Value := v

/-- Strip everything up to and including the injected unique marker
(`parseAndUpdateOutputs` steps 1–2): trim, find the first occurrence of the
marker, keep and re-trim the remainder; without an occurrence the trimmed
text is used whole. -/
def stripMarker (stdout marker : String) : String :=
  let cleaned := jsTrim stdout
  match splitStr marker cleaned with
  | [] => cleaned
  | [_] => cleaned
  | _ :: rest => jsTrim (joinWith marker rest)

/-- Whether a JSON value is a primitive (`string | number | boolean`). -/
def isPrimJson : Json → Bool
  | .str _ => true
  | .num _ => true
  | .bool _ => true
  | _ => false

/-- Modelled from the spec: the `outputs` JSON schema file is not part of the
provided sources; spec §4.2 admits exactly a single `\x7bid, value[, default]\x7d`
record. -/
def isOutputRecord (j : Json) : Bool :=
  match j with
  | .obj _ =>
    (match jGet j "id" with | some (.str _) => true | _ => false)
    && (match jGet j "value" with | some v => isPrimJson v | none => true)
    && (match jGet j "default" with | some v => isPrimJson v | none => true)
  | _ => false

/-- Modelled from the spec: a `\x7bname, value\x7d` record (distinguished by the key
`name` without `id`). -/
def isNameValueRecord (j : Json) : Bool :=
  match j with
  | .obj _ =>
    (match jGet j "name" with | some (.str _) => true | _ => false)
    && (jGet j "id").isNone
    && (match jGet j "value" with | some v => isPrimJson v | _ => false)
  | _ => false

/-- Modelled from the spec: `JsonValidator.serializeJsonWithSchema` against the
`outputs` schema accepts one of the three §4.2 shapes and throws on anything
else. -/
def validOutputsJson (j : Json) : Bool :=
  isOutputRecord j ||
    (match j with
     | .arr xs => xs.all isOutputRecord || xs.all isNameValueRecord
     | _ => false)

/-- The `\x7bname, value\x7d` records of a name/value array, in order (the
processed raw list the source passes through 1:1). -/
def nvEntries (xs : List Json) : Scope :=
  xs.filterMap (fun x =>
    match jGet x "name", jGet x "value" with
    | some (.str n), some v => (jsonPrim? v).map (fun pv => (n, processLocalFileValue pv))
    | _, _ => none)

/-- Apply one `\x7bid, value[, default]\x7d` record: a present `value` is written to
`outputs`, a present `default` to `defaults`. -/
def applyOutputRecord (st : ExecState) (x : Json) : ExecState :=
  let id := match jGet x "id" with
    | some (.str i) => i
    | _ => ""
  let st1 := match (jGet x "value").bind jsonPrim? with
    | some v => { st with outputs := st.outputs.set id (processLocalFileValue v) }
    | none => st
  match (jGet x "default").bind jsonPrim? with
  | some d => { st1 with defaults := st1.defaults.set id d }
  | none => st1

/-- `OutputProcessor.parseAndUpdateOutputs`: strip the marker, parse the
remainder as JSON, validate it against the outputs schema and fold the
records into the scopes.  An `Except.error` models the thrown exception. -/
def parseOutputs (marker : String) (stdout : String) (st : ExecState) :
    Except String ExecState :=
  if jsTrim stdout = "" then .ok st
  else
    let cleaned := stripMarker stdout marker
    if cleaned = "" then .ok st
    else
      match jsonParse cleaned with
      | none => .error "Unexpected token in JSON"
      | some j =>
        if validOutputsJson j then
          match j with
          | .arr xs =>
            match xs.head? with
            | some first =>
              if (jGet first "name").isSome && (jGet first "id").isNone then
                let raw := nvEntries xs
                .ok { st with
                      outputs := raw.foldl (fun o p => o.set p.1 p.2) st.outputs,
                      outputsRawResult := some raw }
              else .ok (xs.foldl applyOutputRecord st)
            | none => .ok st
          | .obj _ => .ok (applyOutputRecord st j)
          | _ => .ok st
        else .error "Outputs schema validation failed"

/-! ### Remote Command Runner (`VeExecution.runOnVeHost` / `runOnLxc`) -/

/-- The `while (retryCount < maxRetries)` loop of `runOnVeHost`: spawn the
session, and only an exit code 255 with retry budget left (`retryCount + 1 <
maxRetries` after the increment) continues the loop.  Returns the attempts in
order; the fuel equals the retry bound, which the loop can never exceed. -/
def connectRetryGo (w : Nat → SpawnResult) (maxRetries : Nat) : Nat → Nat → List SpawnResult
  | _, 0 => []
  | rc, fuel + 1 =>
    let r := w rc
    if r.exitCode = 255 ∧ rc + 1 < maxRetries then
      r :: connectRetryGo w maxRetries (rc + 1) fuel
    else [r]

/-- The retry loop with the source's fixed bound `maxRetries = 3`. -/
def connectRetry (w : Nat → SpawnResult) : List SpawnResult :=
  connectRetryGo w 3 0 3

/-- The action trace of the attempts: each spawn, with the fixed 3000 ms
backoff sleep between consecutive attempts. -/
def attemptActs (stepIdx : Nat) (input : String) (remote : Option (List String)) :
    List SpawnResult → List Act
  | [] => []
  | [r] => [.spawn stepIdx input remote r]
  | r :: rest => .spawn stepIdx input remote r :: .sleep 3000 :: attemptActs stepIdx input remote rest

/-- The final `proc` of the retry loop (the list is never empty). -/
def lastSpawn (rs : List SpawnResult) : SpawnResult :=
  rs.getLastD ⟨"", "", 0⟩

/-- The final attempt `runOnVeHost` will observe for a call at step `stepIdx`
with `k` spawns already performed in this step. -/
def lastAttempt (env : Env) (stepIdx k : Nat) : SpawnResult :=
  lastSpawn (connectRetry (fun a => env.w stepIdx (k + a)))

/-- The message text of the exception thrown (and of the `JsonError` recorded)
for a non-zero exit code. -/
def failMessage (name : Option String) (exitCode : Int) (stderr : String) : String :=
  "Command \"" ++ jsShow name ++ "\" failed with exit code " ++ toString exitCode ++ ": " ++ stderr

/-- `VeExecution.runOnVeHost`: run the payload (with retry on exit 255), then
either report the empty-stdout success/failure, or parse the stdout through
the output codec; a non-zero exit code or a codec error becomes an
`Except.error` (the thrown exception). -/
def runOnVeHost (env : Env) (stepIdx : Nat) (input : String) (cmd : Cmd)
    (remote : Option (List String)) (st : ExecState) : ExecState × Except String Msg :=
  let rs := connectRetry (fun a => env.w stepIdx (st.spawnInStep + a))
  let st0 := { st with acts := st.acts ++ attemptActs stepIdx input remote rs,
                       spawnInStep := st.spawnInStep + rs.length }
  let proc := lastAttempt env stepIdx st.spawnInStep
  let stdout := proc.stdout
  let stderr := proc.stderr
  let exitCode := proc.exitCode
  let msg : Msg := { command := cmd.name, commandtext := input, stderr := stderr,
                     result := some stdout, exitCode := exitCode }
  if jsTrim stdout = "" then
    if exitCode = 0 then
      (st0.emit { command := cmd.name, stderr := stderr, result := some "OK",
                  exitCode := exitCode, execute_on := cmd.execute_on },
       .ok { msg with result := some "OK" })
    else
      let emsg := failMessage cmd.name exitCode stderr
      (st0.emit { command := cmd.name, stderr := stderr, result := some "ERROR",
                  exitCode := exitCode, execute_on := cmd.execute_on },
       .error emsg)
  else
    match parseOutputs env.marker stdout st0 with
    | .error _ =>
      (st0.emit { command := cmd.name, stderr := stderr, result := some stdout,
                  exitCode := -1, execute_on := cmd.execute_on },
       .error "An error occurred during command execution.")
    | .ok st1 =>
      let st2 := { st1 with outputsRaw := match st1.outputsRawResult with
                                          | some r => some r
                                          | none => st1.outputsRaw }
      if exitCode = 0 then
        (st2.emit { command := cmd.name, stderr := stderr, result := some stdout,
                    exitCode := exitCode, execute_on := cmd.execute_on },
         .ok msg)
      else (st2, .error (failMessage cmd.name exitCode stderr))

/-- `VeExecution.runOnLxc`: wrap the payload in `lxc-attach -n <vm_id>` on
the hypervisor host (`sshCommand = "ssh"`). -/
def runOnLxc (env : Env) (stepIdx : Nat) (vm_id : Value) (command : String) (cmd : Cmd)
    (st : ExecState) : ExecState × Except String Msg :=
  runOnVeHost env stepIdx command cmd (some ["lxc-attach", "-n", valueToString vm_id]) st

/-! ### Host discovery (`VeExecution.executeOnHost`) -/

/-- The probe script invoked on the hypervisor host (the module-relative
directory prefix computed from `import.meta.url` is abstracted away). -/
def writeVmidsScript : String := "write-vmids-json.sh"

/-- The probe text to parse: the stringified `used_vm_ids` output when
present and nonempty, otherwise the probe message's result (both `undefined`
and `""` are falsy in the source's checks). -/
def usedStrOf (outVal : Option Value) (probeRes : Option String) : Option String :=
  match outVal.map valueToString with
  | some s => if s = "" then probeRes else some s
  | none => probeRes

/-- Find the probe record whose `hostname` field is the string `hostname`. -/
def findHost (xs : List Json) (hostname : String) : Option Json :=
  xs.find? (fun x =>
    match jGet x "hostname" with
    | some (.str s) => s = hostname
    | _ => false)

/-- `vmctx.data.pve !== undefined && vmctx.data.pve === found.pve`. -/
def pveAgrees (vmctx : VMCtx) (found : Json) : Bool :=
  match vmctx.data.get? "pve", jGet found "pve" with
  | some pv, some fj => valueEqJson pv fj
  | _, _ => false

/-- `Number(vmctx.vmid) === Number(found.vmid)` (strict equality, so a `NaN`
on either side fails). -/
def vmidAgrees (vmctx : VMCtx) (found : Json) : Bool :=
  match jsNumberV vmctx.vmid, (jGet found "vmid").bind jsNumber with
  | some a, some b => a = b
  | _, _ => false

/-- The pure decision part of `executeOnHost` after the probe: recover the
`used_vm_ids` text, parse it, match the hostname, look up the registry entry
and cross-check host identity and container id; each failed check is the
corresponding thrown error. -/
def resolveHostTarget (env : Env) (hostname : String) (outVal : Option Value)
    (probeRes : Option String) : Except String VMCtx :=
  match usedStrOf outVal probeRes with
  | none => .error "No used_vm_ids result received from host probe"
  | some us =>
    if us = "" then .error "No used_vm_ids result received from host probe"
    else
      match jsonParse us with
      | none => .error "Invalid used_vm_ids JSON"
      | some (.arr xs) =>
        match findHost xs hostname with
        | none => .error ("Hostname " ++ hostname ++ " not found in used_vm_ids")
        | some found =>
          match env.registry hostname with
          | none => .error ("VMContext for " ++ hostname ++ " not found")
          | some vmctx =>
            if pveAgrees vmctx found && vmidAgrees vmctx found then .ok vmctx
            else .error "PVE or VMID mismatch between host data and VMContext"
      | some _ => .error "used_vm_ids is not an array"

/-- `VeExecution.executeOnHost`: run the fixed probe script on the hypervisor
host, resolve and cross-check the target container, replace variables first
against the resolved host's recorded data and then against the current
outputs, and only then run the payload inside the matched container. -/
def executeOnHost (env : Env) (stepIdx : Nat) (hostname : String) (command : String)
    (cmd : Cmd) (st : ExecState) : ExecState × Except String Unit :=
  match runOnVeHost env stepIdx "" { cmd with name := some "write-vmids" }
      (some [writeVmidsScript]) st with
  | (st1, .error e) => (st1, .error e)
  | (st1, .ok probeMsg) =>
    match resolveHostTarget env hostname (st1.outputs.get? "used_vm_ids") probeMsg.result with
    | .error e => (st1, .error e)
    | .ok vmctx =>
      let ec1 := replaceVarsWithContext vmctx.data st1 command
      let ec2 := replaceVarsWithContext st1.outputs st1 ec1
      match runOnLxc env stepIdx vmctx.vmid ec2 cmd st1 with
      | (st2, .ok _) => (st2, .ok ())
      | (st2, .error e) => (st2, .error e)

/-! ### Pipeline Executor (`VeExecution.run`) -/

/-- The checkpoint (`IRestartInfo`) value. -/
structure Restart where
  vm_id : Option Int := none
  lastSuccessfull : Int
  inputs : List (String × Value)
  outputs : List (String × Value)
  defaults : List (String × Value)
deriving DecidableEq

/-- Build the checkpoint snapshot of `run` (both the success branch, lines
567–588, and the catch branch, lines 599–621, build exactly this): the
parsed container id, the given last-successful index, the serialized inputs
and defaults, and — when a raw name/value array is held — **that array**
in place of the outputs map. -/
def mkCheckpoint (st : ExecState) (last : Int) : Restart :=
  { vm_id := (st.outputs.get? "vm_id").bind jsParseIntV,
    lastSuccessfull := last,
    inputs := st.inputs,
    outputs := st.outputsRaw.getD st.outputs,
    defaults := st.defaults }

/-- How the body of one step iteration ends. -/
inductive StepExit where
  | okDone
  | cont
  | config
  | exn (e : String)
deriving DecidableEq

/-- The fatal event shape shared by the configuration-failure branches and
the catch branch of `run` (exit code −1, the error text as stderr). -/
def fatalEvent (cmd : Cmd) (stderr : String) : Event :=
  { command := cmd.name, stderr := stderr, result := none, exitCode := -1,
    execute_on := cmd.execute_on }

/-- Whether a command is flagged as already skipped upstream. -/
def isSkippedCmd (cmd : Cmd) : Bool :=
  match cmd.name with
  | some n => containsStr n "(skipped)"
  | none => false

/-- The synthetic success event for a skipped command. -/
def skipEvent (cmd : Cmd) : Event :=
  { command := cmd.name, stderr := jsOr cmd.description "Skipped: all required parameters missing",
    result := none, exitCode := 0, execute_on := cmd.execute_on }

/-- A JSON literal for a primitive property value (used only to fill the
synthetic properties event's result text). -/
def valueJsonLit : Value → String
  | .str s => "\"" ++ s ++ "\""
  | .num n => toString n
  | .bool b => Bool.rec "false" "true" b

def propValLit : PropVal → String
  | .prim v => valueJsonLit v
  | .composite => "[]"

def propEntryLit (e : PropEntry) : String :=
  "\x7b\"id\":\"" ++ e.id ++ "\"" ++
    (match e.value with
     | some v => ",\"value\":" ++ propValLit v
     | none => "") ++ "\x7d"

/-- An approximation of `JSON.stringify(cmd.properties)` for the synthetic
success event (no claim inspects this text). -/
def propsLit : Props → String
  | .one e => propEntryLit e
  | .many es => "[" ++ joinWith "," (es.map propEntryLit) ++ "]"

/-- The synthetic success event of a properties step. -/
def propsEvent (cmd : Cmd) (p : Props) : Event :=
  { command := some (jsOr cmd.name "properties"), stderr := "",
    result := some (propsLit p), exitCode := 0, execute_on := cmd.execute_on }

/-- Apply one property entry of an **array** payload: a falsy id or missing
value is ignored; a string value is variable-resolved, and a resolution to
`NOT_DEFINED` skips the entry; only primitive values are stored. -/
def applyPropEntry (st : ExecState) (e : PropEntry) : ExecState :=
  if e.id = "" then st
  else
    match e.value with
    | none => st
    | some (.prim (.str s)) =>
      let r := replaceVars st s
      if r = "NOT_DEFINED" then st
      else { st with outputs := st.outputs.set e.id (.str r) }
    | some (.prim v) => { st with outputs := st.outputs.set e.id v }
    | some .composite => st

/-- The `properties` branch of `run`.  For an array payload every entry is
applied and one synthetic success event is emitted.  For a single-object
payload whose string value resolves to `NOT_DEFINED`, the source's `continue`
statement jumps to the **next step** directly, so no event is emitted at
all; every other single-object case emits the synthetic success event. -/
def handleProps (cmd : Cmd) (p : Props) (st : ExecState) : ExecState × StepExit :=
  match p with
  | .many es =>
    ((es.foldl applyPropEntry st).emit (propsEvent cmd p), .cont)
  | .one e =>
    if e.id = "" then (st.emit (propsEvent cmd p), .cont)
    else
      match e.value with
      | none => (st.emit (propsEvent cmd p), .cont)
      | some (.prim (.str s)) =>
        let r := replaceVars st s
        if r = "NOT_DEFINED" then (st, .cont)
        else ({ st with outputs := st.outputs.set e.id (.str r) }.emit (propsEvent cmd p), .cont)
      | some (.prim v) =>
        ({ st with outputs := st.outputs.set e.id v }.emit (propsEvent cmd p), .cont)
      | some .composite => (st.emit (propsEvent cmd p), .cont)

/-- The raw command text of a step: the script file's contents, the inline
command, or nothing (an unreadable script file is the thrown `readFileSync`
error). -/
inductive RawRes where
  | noPayload
  | fileErr (e : String)
  | raw (s : String)
deriving DecidableEq

def getRawStr (env : Env) (cmd : Cmd) : RawRes :=
  match cmd.script with
  | some path =>
    match env.files path with
    | some content => .raw content
    | none => .fileErr ("ENOENT: no such file or directory, open '" ++ path ++ "'")
  | none =>
    match cmd.command with
    | some c => .raw c
    | none => .noPayload

/-- The `vm_id` lookup of the `lxc` branch: a string- or number-typed value
from `inputs`, else from `outputs`; the subsequent `if (!vm_id)` test also
rejects a falsy (`""`/`0`) value. -/
def lxcVmId (st : ExecState) : Option Value :=
  let v := match st.inputs.get? "vm_id" with
    | some (.str s) => some (Value.str s)
    | some (.num n) => some (Value.num n)
    | _ =>
      match st.outputs.get? "vm_id" with
      | some (.str s) => some (Value.str s)
      | some (.num n) => some (Value.num n)
      | _ => none
  match v with
  | some v => if valueTruthy v then some v else none
  | none => none

/-- How the `switch (cmd.execute_on)` dispatch ends: fell through (with the
`lastMsg` only the `ve` branch records), a configuration failure that broke
the outer loop after emitting its fatal event, or a thrown exception. -/
inductive DispatchRes where
  | done (lastMsg : Option Msg)
  | config
  | exn (e : String)

/-- The target dispatch of one step (`run`, lines 470–544). -/
def dispatch (env : Env) (i : Nat) (cmd : Cmd) (rawStr : String) (st : ExecState) :
    ExecState × DispatchRes :=
  match cmd.execute_on with
  | some eo =>
    if eo = "lxc" then
      let execStr := replaceVars st rawStr
      match lxcVmId st with
      | none =>
        (st.emit (fatalEvent cmd "vm_id is required for LXC execution but was not found in inputs or outputs."),
         .config)
      | some v =>
        match runOnLxc env i v execStr cmd st with
        | (st1, .ok _) => (st1, .done none)
        | (st1, .error e) => (st1, .exn e)
    else if eo = "ve" then
      let execStr := replaceVars st rawStr
      match runOnVeHost env i execStr cmd none st with
      | (st1, .ok m) => (st1, .done (some m))
      | (st1, .error e) => (st1, .exn e)
    else if startsWithStr eo "host:" then
      let hostname := (splitStr ":" eo).getD 1 ""
      match executeOnHost env i hostname rawStr cmd st with
      | (st1, .ok _) => (st1, .done none)
      | (st1, .error e) => (st1.emit (fatalEvent cmd e), .config)
    else
      (st.emit (fatalEvent cmd (jsShow cmd.name ++ " is missing the execute_on property")), .config)
  | none =>
    (st.emit (fatalEvent cmd (jsShow cmd.name ++ " is missing the execute_on property")), .config)

/-- `.replace(/^echo\s+/, "").replace(/^"/, "").replace(/"$/, "")`. -/
def echoClean (s : String) : String :=
  let l := s.toList
  let l1 := match dropPat? ("echo").toList l with
    | some (c :: rest) => if isWsChar c then dropWs (c :: rest) else l
    | _ => l
  let l2 := match l1 with
    | '"' :: rest => rest
    | other => other
  let l3 := match l2.reverse with
    | '"' :: rest => rest.reverse
    | _ => l2
  String.mk l3

/-- `Object.entries` restricted to primitive values (non-primitive entry
values and the indexed characters of a string receiver are not modelled; no
claim depends on them). -/
def jsEntriesPrim : Json → Scope
  | .obj fs => fs.filterMap (fun p => (jsonPrim? p.2).map (fun v => (p.1, v)))
  | .arr xs => xs.enum.filterMap (fun p => (jsonPrim? p.2).map (fun v => (toString p.1, v)))
  | _ => []

/-- The legacy echo-JSON fallback of `run` (lines 546–565): when no outputs
exist after the step and the `ve` branch recorded a message, try to parse the
message text (minus an `echo ` prefix and surrounding quotes) as JSON and
load its entries into `outputs`/`outputsRaw`; parse failures are swallowed. -/
def echoFallback (st : ExecState) (lastMsg : Option Msg) : ExecState :=
  if st.outputs = [] then
    match lastMsg with
    | some m =>
      match m.result with
      | some rs =>
        match jsonParse (echoClean rs) with
        | some j =>
          let raw := jsEntriesPrim j
          { st with outputs := raw.foldl (fun o p => o.set p.1 p.2) st.outputs,
                    outputsRaw := some raw }
        | none => st
      | none => st
    | none => st
  else st

/-- The body of one iteration of the step loop (the `try` block of `run`). -/
def stepBody (env : Env) (i : Nat) (cmd : Cmd) (st : ExecState) : ExecState × StepExit :=
  if isSkippedCmd cmd then (st.emit (skipEvent cmd), .cont)
  else
    match cmd.properties with
    | some p => handleProps cmd p st
    | none =>
      match getRawStr env cmd with
      | .noPayload => (st, .cont)
      | .fileErr e => (st, .exn e)
      | .raw rawStr =>
        match dispatch env i cmd rawStr st with
        | (st1, .done lastMsg) => (echoFallback st1 lastMsg, .okDone)
        | (st1, .config) => (st1, .config)
        | (st1, .exn e) => (st1, .exn e)

/-- One full step attempt of `run`: the body, then the checkpoint update —
a new checkpoint at index `i` on success, a new checkpoint at `i − 1`
(together with the catch branch's fatal event) on a thrown exception, and the
**unchanged** previous checkpoint on a continue or on a configuration
failure.  The returned flag is `true` when the outer loop breaks. -/
def runStep (env : Env) (i : Nat) (cmd : Cmd) (st : ExecState) (rc : Option Restart) :
    ExecState × Option Restart × Bool :=
  match stepBody env i cmd { st with spawnInStep := 0 } with
  | (st1, .okDone) => (st1, some (mkCheckpoint st1 i), false)
  | (st1, .cont) => (st1, rc, false)
  | (st1, .config) => (st1, rc, true)
  | (st1, .exn e) => (st1.emit (fatalEvent cmd e), some (mkCheckpoint st1 ((i : Int) - 1)), true)

/-- The step loop of `run` from index `i` over the remaining commands. -/
def runLoop (env : Env) : Nat → List Cmd → ExecState → Option Restart → ExecState × Option Restart
  | _, [], st, rc => (st, rc)
  | i, c :: cs, st, rc =>
    match runStep env i c st rc with
    | (st1, rc1, true) => (st1, rc1)
    | (st1, rc1, false) => runLoop env (i + 1) cs st1 rc1

/-- Load a serialized `\x7bname, value\x7d` list into a fresh scope. -/
def loadScope (l : List (String × Value)) : Scope :=
  l.foldl (fun sc p => sc.set p.1 p.2) []

/-- The state the `VeExecution` constructor builds from the caller-supplied
`\x7bid, value\x7d` inputs and defaults map. -/
def initState (inputs : List (String × Value)) (defaults : Scope) : ExecState :=
  { inputs := loadScope inputs, outputs := [], defaults := defaults,
    outputsRaw := none, outputsRawResult := none, events := [], acts := [],
    spawnInStep := 0 }

/-- The derived terminal container context (`VeExecution.buildVmContext`,
with a plain string host, so the `ve_<host>` key branch). -/
structure VMContextM where
  vmid : Option Value
  vekey : Option String
  data : Scope
deriving DecidableEq

def buildVmContext (env : Env) (st : ExecState) : VMContextM :=
  { vmid := st.outputs.get? "vm_id", vekey := some ("ve_" ++ env.host),
    data := st.outputs }

/-- The final synthetic success event. -/
def completedEvent : Event :=
  { command := some "Completed", stderr := "",
    result := some "All commands completed successfully", exitCode := 0,
    execute_on := some "ve", finished := true }

/-- The observable outcome of `run`: the emitted events, the returned
checkpoint, the terminal context passed to the `finished` signal (if any)
and the object state after the call. -/
structure RunResult where
  events : List Event
  restart : Option Restart
  finishedCtx : Option VMContextM
  state : ExecState
deriving DecidableEq

/-- The `allSuccessful` test of `run` (lines 626–628): a checkpoint was
computed and its `lastSuccessfull` equals the last step index. -/
def completedFlag (cmds : List Cmd) (rc : Option Restart) : Bool :=
  match rc with
  | some r => r.lastSuccessfull = (cmds.length : Int) - 1
  | none => false

/-- `VeExecution.run`: optionally reload the scopes from a checkpoint and
start at `lastSuccessfull + 1`; iterate the steps; when the final computed
checkpoint covers the last index, emit the `Completed` event and — on a
fresh run only — signal the terminal container context. -/
def runModel (env : Env) (cmds : List Cmd) (st0 : ExecState) (ri : Option Restart) : RunResult :=
  let st1 := match ri with
    | none => st0
    | some r => { st0 with inputs := loadScope r.inputs, outputs := loadScope r.outputs,
                           defaults := loadScope r.defaults }
  let startIdx : Nat := match ri with
    | none => 0
    | some r => (r.lastSuccessfull + 1).toNat
  let lr := runLoop env startIdx (cmds.drop startIdx) st1 none
  let st2 := lr.1
  let rc := lr.2
  let allSuccessful : Bool := completedFlag cmds rc
  let st3 := if allSuccessful then st2.emit completedEvent else st2
  let ctx := if allSuccessful && ri.isNone then some (buildVmContext env st3) else none
  { events := st3.events, restart := rc, finishedCtx := ctx, state := st3 }

/-! ### Concrete run fixtures used by the claim theorems -/

/-- A spawn oracle environment with no files and an empty registry. -/
def mkPlainEnv (f : Nat → Nat → SpawnResult) : Env :=
  { w := f, files := fun _ => none, registry := fun _ => none, host := "pve1",
    marker := "LXC_MANAGER_JSON_START_MARKER_0_x" }

/-- A `ve`-targeted inline command step. -/
def veStep (n : String) : Cmd :=
  { name := some n, execute_on := some "ve", command := some ":" }

/-- An `lxc`-targeted inline command step. -/
def lxcStep (n : String) : Cmd :=
  { name := some n, execute_on := some "lxc", command := some "x" }

/-- Every spawn succeeds silently. -/
def okEnv : Env := mkPlainEnv (fun _ _ => ⟨"", "", 0⟩)

/-- Step 0 prints an `\x7bid, value\x7d` array, step 1 a `\x7bname, value\x7d` array, step 2
nothing; all exit 0. -/
def staleEnv : Env := mkPlainEnv (fun i _ =>
  if i = 0 then ⟨"[\x7b\"id\":\"a\",\"value\":\"1\"\x7d]", "", 0⟩
  else if i = 1 then ⟨"[\x7b\"name\":\"b\",\"value\":\"2\"\x7d]", "", 0⟩
  else ⟨"", "", 0⟩)

def staleCmds : List Cmd := [veStep "s0", veStep "s1", veStep "s2"]

/-- Step 0 prints a `\x7bname, value\x7d` array and succeeds; step 1 prints an
`\x7bid, value\x7d` array but exits 1. -/
def rawFailEnv : Env := mkPlainEnv (fun i _ =>
  if i = 0 then ⟨"[\x7b\"name\":\"b\",\"value\":\"2\"\x7d]", "", 0⟩
  else ⟨"[\x7b\"id\":\"c\",\"value\":\"3\"\x7d]", "boom", 1⟩)

/-- A single-object properties step whose value resolves to `NOT_DEFINED`. -/
def modeProp : Cmd :=
  { name := some "set-mode",
    properties := some (.one ⟨"mode", some (.prim (.str "\x7b\x7bselected_mode\x7d\x7d"))⟩) }

/-- The same property as a one-element array payload. -/
def modePropArr : Cmd :=
  { name := some "set-mode",
    properties := some (.many [⟨"mode", some (.prim (.str "\x7b\x7bselected_mode\x7d\x7d"))⟩]) }

/-- A resolvable single-object properties step. -/
def setxProp : Cmd :=
  { name := some "setx", properties := some (.one ⟨"x", some (.prim (.str "1"))⟩) }

/-! ### C1 — checkpoint/resume identity -/

/-- **C1.**  The claimed resume identity fails on the code: after a step whose
output is a `\x7bname, value\x7d` array, `run` serializes the retained raw array
`outputsRaw` instead of the full `outputs` map into the checkpoint, so the
checkpoint after step 1 carries only `b` although the outputs scope also holds
`a` from step 0; resuming from that checkpoint therefore loses `a`, and the
resumed final outputs differ from the uninterrupted run's. -/
theorem c1_checkpoint_resume_bug :
    (runModel staleEnv (staleCmds.take 2) (initState [] []) none).restart
      = some { vm_id := none, lastSuccessfull := 1, inputs := [],
               outputs := [("b", Value.str "2")], defaults := [] } ∧
    (runModel staleEnv (staleCmds.take 2) (initState [] []) none).state.outputs
      = [("a", Value.str "1"), ("b", Value.str "2")] ∧
    (runModel staleEnv staleCmds (initState [] [])
        (some { vm_id := none, lastSuccessfull := 1, inputs := [],
                outputs := [("b", Value.str "2")], defaults := [] })).state.outputs
      = [("b", Value.str "2")] ∧
    (runModel staleEnv staleCmds (initState [] []) none).state.outputs
      = [("a", Value.str "1"), ("b", Value.str "2")] := by
  refine ⟨by decide, by decide, by decide, by decide⟩

/-! ### C2 — checkpoint computation and return on failure -/

/-- **C2, counterexample.**  A terminal configuration failure at the very
first step (an `lxc` step without any `vm_id`) emits its fatal event but
returns **no** checkpoint at all, contradicting the claim that every terminal
failure results in a checkpoint with `lastSuccessful = index − 1` being
returned. -/
theorem c2_first_step_config_failure_returns_none :
    (runModel okEnv [lxcStep "s0"] (initState [] []) none).restart = none ∧
    (runModel okEnv [lxcStep "s0"] (initState [] []) none).events
      = [fatalEvent (lxcStep "s0")
          "vm_id is required for LXC execution but was not found in inputs or outputs."] := by
  refine ⟨by decide, by decide⟩

/-! ### C5 — properties step with a `NOT_DEFINED` value -/

/-- **C5.**  For the single-object payload `\x7bid:"mode",
value:"\x7b\x7bselected_mode\x7d\x7d"\x7d` with `selected_mode` absent from every scope,
the property is indeed skipped, but the source's `continue` statement jumps
straight to the next step: **no** synthetic success event is emitted (and no
checkpoint is computed) for the step, contradicting the claim that exactly
one success event is emitted for both payload shapes.  For the equivalent
one-element **array** payload the claimed behaviour does hold: one synthetic
event with exit code 0 and no write to the outputs. -/
theorem c5_single_not_defined_emits_nothing :
    (runModel okEnv [modeProp] (initState [] []) none).events = [] ∧
    (runModel okEnv [modeProp] (initState [] []) none).state.outputs = [] ∧
    (runModel okEnv [modeProp] (initState [] []) none).restart = none ∧
    (runModel okEnv [modePropArr] (initState [] []) none).events.map (fun e => e.exitCode)
      = [0] ∧
    (runModel okEnv [modePropArr] (initState [] []) none).state.outputs = [] := by
  refine ⟨by decide, by decide, by decide, by decide, by decide⟩

/-! ### C8 — the final `Completed` event -/

/-- **C8, counterexample.**  A run whose last step is a properties step
completes every step successfully (both steps emit their success events with
exit code 0), yet no `Completed` event is emitted: properties steps never
update the checkpoint, so the final checkpoint index `0` differs from
`length − 1 = 1` and the completion branch is skipped. -/
theorem c8_trailing_properties_step_suppresses_completed :
    (runModel okEnv [veStep "s0", setxProp] (initState [] []) none).events.map
        (fun e => (e.exitCode, e.finished)) = [(0, false), (0, false)] ∧
    (runModel okEnv [veStep "s0", setxProp] (initState [] []) none).events.countP
        (fun e => e.finished) = 0 ∧
    (runModel okEnv [veStep "s0", setxProp] (initState [] []) none).restart
      = some { vm_id := none, lastSuccessfull := 0, inputs := [], outputs := [],
               defaults := [] } := by
  refine ⟨by decide, by decide, by decide⟩

/-! ### C10 — scope mutation before a script-level failure -/

/-- **C10, counterexample.**  Step 0 prints a `\x7bname, value\x7d` array (setting
the retained raw list), step 1 prints `[\x7b"id":"c","value":"3"\x7d]` but exits 1.
The parsed record **is** merged into the outputs scope before the failure is
raised, but the returned failure checkpoint serializes the stale raw array
`[(b, 2)]` instead, so the mutated value `c` does **not** appear in the
checkpoint, contradicting the claim's second half. -/
theorem c10_mutation_missing_from_checkpoint :
    (runModel rawFailEnv [veStep "s0", veStep "s1"] (initState [] []) none).state.outputs
      = [("b", Value.str "2"), ("c", Value.str "3")] ∧
    (runModel rawFailEnv [veStep "s0", veStep "s1"] (initState [] []) none).restart
      = some { vm_id := none, lastSuccessfull := 0, inputs := [],
               outputs := [("b", Value.str "2")], defaults := [] } := by
  refine ⟨by decide, by decide⟩

/-- **C2, amended.**  Every step attempt either leaves the checkpoint
variable unchanged (skip/properties/unknown-payload continues and every
configuration-failure break), or computes a fresh checkpoint at the current
index and continues (success), or computes a fresh checkpoint at the current
index minus one and breaks (a thrown exception, handled by the catch
branch).  In particular a configuration failure never computes a checkpoint:
the caller receives the previously computed one — or none at all, as the
counterexample shows. -/
theorem c2_checkpoint_trichotomy (env : Env) (i : Nat) (cmd : Cmd) (st : ExecState)
    (rc : Option Restart) :
    (runStep env i cmd st rc).2.1 = rc ∨
    ((runStep env i cmd st rc).2.1 = some (mkCheckpoint (runStep env i cmd st rc).1 i) ∧
      (runStep env i cmd st rc).2.2 = false) ∨
    ((runStep env i cmd st rc).2.1 = some (mkCheckpoint (runStep env i cmd st rc).1 ((i : Int) - 1)) ∧
      (runStep env i cmd st rc).2.2 = true) := by
  unfold runStep
  rcases hb : stepBody env i cmd { st with spawnInStep := 0 } with ⟨st1, ex⟩
  cases ex with
  | okDone => right; left; simp
  | cont => left; simp
  | config => left; simp
  | exn e => right; right; simp [mkCheckpoint, ExecState.emit]

/-! ### C3 — the exit-255 retry policy -/

/-- **C3.**  The retry loop makes at most 3 attempts; a first non-255 exit
ends it after one attempt, an exit 255 followed by a non-255 exit ends it
after two, two 255s lead to a third and final attempt whatever its outcome —
never a fourth.  The action trace of a three-attempt call carries the same
payload on every spawn with the fixed 3000 ms sleep between consecutive
attempts. -/
theorem c3_retry_policy (w : Nat → SpawnResult) :
    (connectRetry w).length ≤ 3 ∧
    ((w 0).exitCode ≠ 255 → connectRetry w = [w 0]) ∧
    ((w 0).exitCode = 255 → (w 1).exitCode ≠ 255 → connectRetry w = [w 0, w 1]) ∧
    ((w 0).exitCode = 255 → (w 1).exitCode = 255 → connectRetry w = [w 0, w 1, w 2]) ∧
    (∀ i input remote r1 r2 r3,
      attemptActs i input remote [r1, r2, r3] =
        [Act.spawn i input remote r1, Act.sleep 3000, Act.spawn i input remote r2,
         Act.sleep 3000, Act.spawn i input remote r3]) := by
  refine ⟨?_, ?_, ?_, ?_, fun i input remote r1 r2 r3 => rfl⟩
  · by_cases h0 : (w 0).exitCode = 255
    · by_cases h1 : (w 1).exitCode = 255
      · simp [connectRetry, connectRetryGo, h0, h1]
      · simp [connectRetry, connectRetryGo, h0, h1]
    · simp [connectRetry, connectRetryGo, h0]
  · intro h0
    simp [connectRetry, connectRetryGo, h0]
  · intro h0 h1
    simp [connectRetry, connectRetryGo, h0, h1]
  · intro h0 h1
    simp [connectRetry, connectRetryGo, h0, h1]

/-- Witness for C3: with every attempt exiting 255, exactly the three
attempts (and no fourth) are made. -/
theorem c3_retry_policy_witness :
    connectRetry (fun _ => SpawnResult.mk "" "conn" 255) =
      [SpawnResult.mk "" "conn" 255, SpawnResult.mk "" "conn" 255,
       SpawnResult.mk "" "conn" 255] :=
  (c3_retry_policy (fun _ => SpawnResult.mk "" "conn" 255)).2.2.2.1 rfl rfl

/-! ### C4 — `lxc` step without a resolvable `vm_id` -/

/-- **C4.**  A non-skipped script/command step targeting `lxc` with no
`vm_id` in inputs or outputs makes the step emit the fatal event and break
the loop immediately: the state change is exactly one emitted event (so the
action trace is untouched — no spawn, hence no remote call and no retry),
and the checkpoint variable is left unchanged, so with a previous successful
step `k` the caller receives that step's checkpoint.  The concrete scenario
(step 0 succeeds on `ve`, step 1 is `lxc` without `vm_id`) returns
`lastSuccessfull = 0` and records only step 0's single spawn. -/
theorem c4_lxc_missing_vmid (env : Env) (i : Nat) (cmd : Cmd) (st : ExecState)
    (rc : Option Restart) (rawStr : String)
    (hskip : isSkippedCmd cmd = false)
    (hprops : cmd.properties = none)
    (hraw : getRawStr env cmd = .raw rawStr)
    (heo : cmd.execute_on = some "lxc")
    (hvm : lxcVmId { st with spawnInStep := 0 } = none) :
    runStep env i cmd st rc =
      ({ st with spawnInStep := 0 }.emit (fatalEvent cmd
          "vm_id is required for LXC execution but was not found in inputs or outputs."),
       rc, true) ∧
    (runStep env i cmd st rc).1.acts = st.acts ∧
    ((runModel okEnv [veStep "s0", lxcStep "s1"] (initState [] []) none).restart.map
        (fun r => r.lastSuccessfull) = some 0) ∧
    (runModel okEnv [veStep "s0", lxcStep "s1"] (initState [] []) none).state.acts.length
      = 1 := by
  have hb : stepBody env i cmd { st with spawnInStep := 0 } =
      ({ st with spawnInStep := 0 }.emit (fatalEvent cmd
          "vm_id is required for LXC execution but was not found in inputs or outputs."),
       .config) := by
    simp [stepBody, hskip, hprops, hraw, dispatch, heo, hvm]
  refine ⟨?_, ?_, by decide, by decide⟩
  · simp [runStep, hb]
  · simp [runStep, hb, ExecState.emit]

/-- Witness for C4 at a concrete input: the step is aborted with the fatal
event, the previously computed checkpoint (`lastSuccessfull = 0`) is kept and
the loop breaks. -/
theorem c4_lxc_missing_vmid_witness :
    runStep okEnv 1 (lxcStep "s1") (initState [] [])
        (some { vm_id := none, lastSuccessfull := 0, inputs := [], outputs := [],
                defaults := [] }) =
      ({ initState [] [] with spawnInStep := 0 }.emit (fatalEvent (lxcStep "s1")
          "vm_id is required for LXC execution but was not found in inputs or outputs."),
       some { vm_id := none, lastSuccessfull := 0, inputs := [], outputs := [],
              defaults := [] }, true) := by
  have h := c4_lxc_missing_vmid okEnv 1 (lxcStep "s1") (initState [] [])
    (some { vm_id := none, lastSuccessfull := 0, inputs := [], outputs := [],
            defaults := [] }) "x" (by decide) rfl rfl rfl (by decide)
  exact h.1

/-! ### C7 — empty stdout: success vs failure -/

/-- **C7.**  When the final attempt's stdout is empty after trimming: an exit
code 0 makes the step a success with the canonical `"OK"` result and no
mutation of the outputs or defaults scopes; a non-zero exit code makes the
step a failure (the thrown error text) — not an empty-success — and the
emitted failure event carries the captured stderr (result `"ERROR"`, the real
exit code), again with no scope mutation. -/
theorem c7_empty_stdout_semantics (env : Env) (i : Nat) (input : String) (cmd : Cmd)
    (remote : Option (List String)) (st : ExecState)
    (hempty : jsTrim (lastAttempt env i st.spawnInStep).stdout = "") :
    ((lastAttempt env i st.spawnInStep).exitCode = 0 →
      (runOnVeHost env i input cmd remote st).2 =
        .ok { command := cmd.name, commandtext := input,
              stderr := (lastAttempt env i st.spawnInStep).stderr,
              result := some "OK", exitCode := 0 } ∧
      (runOnVeHost env i input cmd remote st).1.outputs = st.outputs ∧
      (runOnVeHost env i input cmd remote st).1.defaults = st.defaults ∧
      (runOnVeHost env i input cmd remote st).1.events =
        st.events ++ [{ command := cmd.name,
                        stderr := (lastAttempt env i st.spawnInStep).stderr,
                        result := some "OK", exitCode := 0,
                        execute_on := cmd.execute_on }]) ∧
    ((lastAttempt env i st.spawnInStep).exitCode ≠ 0 →
      (runOnVeHost env i input cmd remote st).2 =
        .error (failMessage cmd.name (lastAttempt env i st.spawnInStep).exitCode
                 (lastAttempt env i st.spawnInStep).stderr) ∧
      (runOnVeHost env i input cmd remote st).1.outputs = st.outputs ∧
      (runOnVeHost env i input cmd remote st).1.defaults = st.defaults ∧
      (runOnVeHost env i input cmd remote st).1.events =
        st.events ++ [{ command := cmd.name,
                        stderr := (lastAttempt env i st.spawnInStep).stderr,
                        result := some "ERROR",
                        exitCode := (lastAttempt env i st.spawnInStep).exitCode,
                        execute_on := cmd.execute_on }]) := by
  constructor
  · intro h0
    simp [runOnVeHost, hempty, h0, ExecState.emit]
  · intro h0
    simp [runOnVeHost, hempty, h0, ExecState.emit]

/-- Witness for C7: a concrete empty-stdout failure (exit 2, stderr
`"bad"`) produces the thrown error text and exactly the one failure event
carrying the stderr. -/
theorem c7_empty_stdout_witness :
    (runOnVeHost (mkPlainEnv (fun _ _ => ⟨"  ", "bad", 2⟩)) 0 "x" (veStep "s")
        none (initState [] [])).2 =
      .error (failMessage (some "s") 2 "bad") := by
  have h := (c7_empty_stdout_semantics (mkPlainEnv (fun _ _ => ⟨"  ", "bad", 2⟩)) 0 "x"
    (veStep "s") none (initState [] []) (by decide)).2 (by decide)
  exact h.1

/-! ### C9 — substitution precedence and the `NOT_DEFINED` sentinel -/

/-- A one-name scope holding an optional value. -/
def singletonScope (n : String) : Option Value → Scope
  | some v => [(n, v)]
  | none => []

/-- **C9** (spec-modelled resolver).  For a `\x7b\x7bname\x7d\x7d` token, substitution
replaces it in place with the string form of the first defined value in the
precedence order override context → outputs → inputs → defaults, and when the
name is defined in no scope the literal sentinel `NOT_DEFINED` is spliced
into the text instead (the resolver is a total function — no exception). -/
theorem c9_substitution_precedence (vc vo vi vd : Option Value) :
    replaceVarsWithContext (singletonScope "name" vc)
      { inputs := singletonScope "name" vi, outputs := singletonScope "name" vo,
        defaults := singletonScope "name" vd, outputsRaw := none,
        outputsRawResult := none, events := [], acts := [], spawnInStep := 0 }
      "pre \x7b\x7bname\x7d\x7d post" =
    "pre " ++
      (match vc, vo, vi, vd with
       | some v, _, _, _ => valueToString v
       | none, some v, _, _ => valueToString v
       | none, none, some v, _ => valueToString v
       | none, none, none, some v => valueToString v
       | none, none, none, none => "NOT_DEFINED") ++ " post" := by
  cases vc <;> cases vo <;> cases vi <;> cases vd <;> rfl

/-- The state of `runOnVeHost` after the retry loop, before output handling
(the attempts recorded in the action trace and the spawn counter advanced). -/
def afterAttempts (env : Env) (i : Nat) (input : String) (remote : Option (List String))
    (st : ExecState) : ExecState :=
  { st with acts := st.acts ++ attemptActs i input remote
              (connectRetry (fun a => env.w i (st.spawnInStep + a))),
            spawnInStep := st.spawnInStep +
              (connectRetry (fun a => env.w i (st.spawnInStep + a))).length }

/-- **C10, amended.**  When the final attempt's stdout is non-empty and the
output codec accepts it, the parsed records are merged into the scopes
**before** the non-zero exit code turns into a thrown error: the returned
state is exactly the post-parse state (no rollback), with the retained raw
list refreshed.  The merged values then appear in the failure checkpoint
whenever no raw name/value array is retained (`outputsRaw = none`): in that
case the checkpoint serializes the outputs scope itself; when a raw array is
retained the checkpoint reproduces that array instead (the counterexample
shows it can omit the freshly merged values). -/
theorem c10_merge_before_failure (env : Env) (i : Nat) (input : String) (cmd : Cmd)
    (remote : Option (List String)) (st st2 : ExecState)
    (hne : ¬ jsTrim (lastAttempt env i st.spawnInStep).stdout = "")
    (hec : ¬ (lastAttempt env i st.spawnInStep).exitCode = 0)
    (hp : parseOutputs env.marker (lastAttempt env i st.spawnInStep).stdout
            (afterAttempts env i input remote st) = .ok st2) :
    runOnVeHost env i input cmd remote st =
      ({ st2 with outputsRaw := match st2.outputsRawResult with
                                | some r => some r
                                | none => st2.outputsRaw },
       .error (failMessage cmd.name (lastAttempt env i st.spawnInStep).exitCode
                (lastAttempt env i st.spawnInStep).stderr)) ∧
    (∀ l : Int, (runOnVeHost env i input cmd remote st).1.outputsRaw = none →
       (mkCheckpoint (runOnVeHost env i input cmd remote st).1 l).outputs =
         (runOnVeHost env i input cmd remote st).1.outputs) := by
  unfold afterAttempts at hp
  have h1 : runOnVeHost env i input cmd remote st =
      ({ st2 with outputsRaw := match st2.outputsRawResult with
                                | some r => some r
                                | none => st2.outputsRaw },
       .error (failMessage cmd.name (lastAttempt env i st.spawnInStep).exitCode
                (lastAttempt env i st.spawnInStep).stderr)) := by
    simp [runOnVeHost, hne, hec, hp]
  refine ⟨h1, ?_⟩
  intro l hnone
  simp [mkCheckpoint, hnone]

/-- The environment of the C10 witness: one attempt printing
`[\x7b"id":"c","value":"3"\x7d]` with exit code 1. -/
def c10Env : Env := mkPlainEnv (fun _ _ => ⟨"[\x7b\"id\":\"c\",\"value\":\"3\"\x7d]", "boom", 1⟩)

/-- The post-parse state of the C10 witness. -/
def c10St2 : ExecState :=
  { inputs := [], outputs := [("c", Value.str "3")], defaults := [],
    outputsRaw := none, outputsRawResult := none, events := [],
    acts := [Act.spawn 0 ":" none ⟨"[\x7b\"id\":\"c\",\"value\":\"3\"\x7d]", "boom", 1⟩],
    spawnInStep := 1 }

/-- Witness for C10: the failing step's parsed output `c = "3"` is present in
the returned object state even though the call ends in the thrown error. -/
theorem c10_merge_before_failure_witness :
    (runOnVeHost c10Env 0 ":" (veStep "s1") none (initState [] [])).1.outputs
      = [("c", Value.str "3")] ∧
    (runOnVeHost c10Env 0 ":" (veStep "s1") none (initState [] [])).2 =
      .error (failMessage (some "s1") 1 "boom") := by
  have h := c10_merge_before_failure c10Env 0 ":" (veStep "s1") none (initState [] [])
    c10St2 (by decide) (by decide) (by rfl)
  refine ⟨?_, ?_⟩
  · rw [h.1]; rfl
  · rw [h.1]; rfl

/-! ### C6 — the two-phase host-discovery protocol -/

/-- **C6.**  Host-targeted execution is gated exactly as claimed:
(1) the pure post-probe decision succeeds only when the probe text parses as
a JSON array containing a record for the hostname **and** the recorded
registry entry exists **and** both the host identity (`pve`) and the numeric
container id (`vmid`) agree — so a mismatch, a missing registry entry, an
absent probe match or unparseable probe output each yield the thrown error;
(2) `executeOnHost` runs the probe first and, on a failed check, returns the
error without any further spawn, while on success it runs exactly the
payload (re-substituted against the host's recorded data, then the current
outputs) inside the matched container via `lxc-attach`;
(3) an `executeOnHost` error makes the `host:` dispatch branch emit the
fatal event and break the run (a configuration failure — never retried). -/
theorem c6_host_discovery (env : Env) (i : Nat) (hn command : String) (cmd : Cmd)
    (st : ExecState) :
    (∀ outVal probeRes vmctx,
       resolveHostTarget env hn outVal probeRes = .ok vmctx →
       env.registry hn = some vmctx ∧
       ∃ us xs found, usedStrOf outVal probeRes = some us ∧
         jsonParse us = some (.arr xs) ∧ findHost xs hn = some found ∧
         pveAgrees vmctx found = true ∧ vmidAgrees vmctx found = true) ∧
    (∀ st1 probeMsg,
       runOnVeHost env i "" { cmd with name := some "write-vmids" }
           (some [writeVmidsScript]) st = (st1, .ok probeMsg) →
       (∀ e, resolveHostTarget env hn (st1.outputs.get? "used_vm_ids") probeMsg.result
               = .error e →
          executeOnHost env i hn command cmd st = (st1, .error e)) ∧
       (∀ vmctx, resolveHostTarget env hn (st1.outputs.get? "used_vm_ids") probeMsg.result
               = .ok vmctx →
          executeOnHost env i hn command cmd st =
            ((runOnLxc env i vmctx.vmid
                (replaceVarsWithContext st1.outputs st1
                  (replaceVarsWithContext vmctx.data st1 command)) cmd st1).1,
             match (runOnLxc env i vmctx.vmid
                (replaceVarsWithContext st1.outputs st1
                  (replaceVarsWithContext vmctx.data st1 command)) cmd st1).2 with
             | .ok _ => .ok ()
             | .error e => .error e))) ∧
    (∀ e st1 rawS eo,
       cmd.execute_on = some eo → startsWithStr eo "host:" = true →
       executeOnHost env i ((splitStr ":" eo).getD 1 "") rawS cmd st = (st1, .error e) →
       dispatch env i cmd rawS st = (st1.emit (fatalEvent cmd e), .config)) := by
  refine ⟨?_, ?_, ?_⟩
  · intro outVal probeRes vmctx hres
    unfold resolveHostTarget at hres
    split at hres
    · exact Except.noConfusion hres
    · rename_i us hu
      split at hres
      · exact Except.noConfusion hres
      · split at hres
        · exact Except.noConfusion hres
        · rename_i xs hj
          split at hres
          · exact Except.noConfusion hres
          · rename_i found hf
            split at hres
            · exact Except.noConfusion hres
            · rename_i vm hr
              split at hres
              · rename_i hag
                injection hres with hvm
                subst hvm
                obtain ⟨h1, h2⟩ : pveAgrees vm found = true ∧ vmidAgrees vm found = true := by
                  simpa using hag
                exact ⟨hr, us, xs, found, hu, hj, hf, h1, h2⟩
              · exact Except.noConfusion hres
        · exact Except.noConfusion hres
  · intro st1 probeMsg hprobe
    constructor
    · intro e hresE
      simp [executeOnHost, hprobe, hresE]
    · intro vmctx hresO
      rcases hL : runOnLxc env i vmctx.vmid
          (replaceVarsWithContext st1.outputs st1
            (replaceVarsWithContext vmctx.data st1 command)) cmd st1 with ⟨st2, r⟩
      cases r <;> simp [executeOnHost, hprobe, hresO, hL]
  · intro e st1 rawS eo heo hho hex
    have hne1 : ¬ eo = "lxc" := by rintro rfl; exact absurd hho (by decide)
    have hne2 : ¬ eo = "ve" := by rintro rfl; exact absurd hho (by decide)
    simp only [dispatch, heo, if_neg hne1, if_neg hne2, hho, if_pos, hex]

/-- The witness environment for C6: a registry entry for `web` recording host
identity `p1` and container id 101. -/
def hostEnv : Env :=
  { mkPlainEnv (fun _ _ => ⟨"", "", 0⟩) with
    registry := fun hn =>
      if hn = "web" then some ⟨Value.num 101, [("pve", Value.str "p1")]⟩ else none }

/-- The probe's `used_vm_ids` JSON of the C6 witness. -/
def usedJson : String := "[\x7b\"hostname\":\"web\",\"pve\":\"p1\",\"vmid\":101\x7d]"

/-- Witness for C6: a concrete agreeing probe/registry pair passes all the
checks of the success characterization. -/
theorem c6_host_discovery_witness :
    hostEnv.registry "web" = some ⟨Value.num 101, [("pve", Value.str "p1")]⟩ ∧
    ∃ us xs found, usedStrOf (some (Value.str usedJson)) none = some us ∧
      jsonParse us = some (.arr xs) ∧ findHost xs "web" = some found ∧
      pveAgrees ⟨Value.num 101, [("pve", Value.str "p1")]⟩ found = true ∧
      vmidAgrees ⟨Value.num 101, [("pve", Value.str "p1")]⟩ found = true := by
  have h := (c6_host_discovery hostEnv 0 "web" "payload" (veStep "h")
    (initState [] [])).1 (some (Value.str usedJson)) none
    ⟨Value.num 101, [("pve", Value.str "p1")]⟩ (by rfl)
  exact h

/-! ### C8 — the `Completed` event and the terminal context

Helper invariant: no event emitted inside the step loop carries the
`finished` flag; only the final synthetic `Completed` event does. -/

/-- Number of `finished` events in a trace. -/
def finCount (es : List Event) : Nat := es.countP (fun e => e.finished)

theorem finCount_append (a b : List Event) :
    finCount (a ++ b) = finCount a + finCount b := by
  simp [finCount, List.countP_append]

theorem finCount_emit_false (st : ExecState) (e : Event) (he : e.finished = false) :
    finCount (st.emit e).events = finCount st.events := by
  simp [ExecState.emit, finCount, List.countP_append, he]

theorem fatalEvent_finished (cmd : Cmd) (s : String) : (fatalEvent cmd s).finished = false := rfl

theorem skipEvent_finished (cmd : Cmd) : (skipEvent cmd).finished = false := rfl

theorem propsEvent_finished (cmd : Cmd) (p : Props) : (propsEvent cmd p).finished = false := rfl

theorem applyOutputRecord_events (st : ExecState) (x : Json) :
    (applyOutputRecord st x).events = st.events := by
  simp only [applyOutputRecord]
  repeat' split
  all_goals rfl

theorem foldl_applyOutputRecord_events (xs : List Json) (st : ExecState) :
    (xs.foldl applyOutputRecord st).events = st.events := by
  induction xs generalizing st with
  | nil => rfl
  | cons x xs ih => rw [List.foldl_cons, ih, applyOutputRecord_events]

theorem parseOutputs_events {m s : String} {st st2 : ExecState}
    (h : parseOutputs m s st = .ok st2) : st2.events = st.events := by
  simp only [parseOutputs] at h
  repeat' split at h
  all_goals first
    | exact Except.noConfusion h
    | (injection h with h2; subst h2;
       first
         | rfl
         | exact foldl_applyOutputRecord_events _ _
         | exact applyOutputRecord_events _ _)

theorem runOnVeHost_finCount (env : Env) (i : Nat) (input : String) (cmd : Cmd)
    (remote : Option (List String)) (st : ExecState) :
    finCount (runOnVeHost env i input cmd remote st).1.events = finCount st.events := by
  by_cases h1 : jsTrim (lastAttempt env i st.spawnInStep).stdout = ""
  · by_cases h2 : (lastAttempt env i st.spawnInStep).exitCode = 0
    · simp [runOnVeHost, h1, h2, ExecState.emit, finCount, List.countP_append]
    · simp [runOnVeHost, h1, h2, ExecState.emit, finCount, List.countP_append]
  · rcases hp : parseOutputs env.marker (lastAttempt env i st.spawnInStep).stdout
        (afterAttempts env i input remote st) with e | st1
    all_goals unfold afterAttempts at hp
    · simp [runOnVeHost, h1, hp, ExecState.emit, finCount, List.countP_append]
    · have he := parseOutputs_events hp
      by_cases h2 : (lastAttempt env i st.spawnInStep).exitCode = 0
      · simp [runOnVeHost, h1, hp, h2, ExecState.emit, finCount, List.countP_append, he]
      · simp [runOnVeHost, h1, hp, h2, finCount, he]

theorem runOnLxc_finCount (env : Env) (i : Nat) (v : Value) (command : String)
    (cmd : Cmd) (st : ExecState) :
    finCount (runOnLxc env i v command cmd st).1.events = finCount st.events :=
  runOnVeHost_finCount env i command cmd (some ["lxc-attach", "-n", valueToString v]) st

theorem executeOnHost_finCount (env : Env) (i : Nat) (hn command : String) (cmd : Cmd)
    (st : ExecState) :
    finCount (executeOnHost env i hn command cmd st).1.events = finCount st.events := by
  unfold executeOnHost
  rcases hpr : runOnVeHost env i "" { cmd with name := some "write-vmids" }
      (some [writeVmidsScript]) st with ⟨st1, r⟩
  have h1 : finCount st1.events = finCount st.events := by
    have h := runOnVeHost_finCount env i "" { cmd with name := some "write-vmids" }
      (some [writeVmidsScript]) st
    rwa [hpr] at h
  cases r with
  | error e => simp [hpr, h1]
  | ok m =>
    rcases hrt : resolveHostTarget env hn (st1.outputs.get? "used_vm_ids") m.result
        with e | vmctx
    · simp [hpr, hrt, h1]
    · rcases hL : runOnLxc env i vmctx.vmid
          (replaceVarsWithContext st1.outputs st1
            (replaceVarsWithContext vmctx.data st1 command)) cmd st1 with ⟨st2, r2⟩
      have h2 : finCount st2.events = finCount st1.events := by
        have h := runOnLxc_finCount env i vmctx.vmid
          (replaceVarsWithContext st1.outputs st1
            (replaceVarsWithContext vmctx.data st1 command)) cmd st1
        rwa [hL] at h
      cases r2 <;> simp [hpr, hrt, hL, h1, h2]

theorem applyPropEntry_events (st : ExecState) (e : PropEntry) :
    (applyPropEntry st e).events = st.events := by
  simp only [applyPropEntry]
  repeat' split
  all_goals rfl

theorem foldl_applyPropEntry_events (es : List PropEntry) (st : ExecState) :
    (es.foldl applyPropEntry st).events = st.events := by
  induction es generalizing st with
  | nil => rfl
  | cons e es ih => rw [List.foldl_cons, ih, applyPropEntry_events]

theorem handleProps_finCount (cmd : Cmd) (p : Props) (st : ExecState) :
    finCount (handleProps cmd p st).1.events = finCount st.events := by
  rcases p with e | es
  · simp only [handleProps]
    repeat' split
    all_goals simp [finCount_emit_false, propsEvent_finished]
  · simp only [handleProps]
    rw [finCount_emit_false _ _ (propsEvent_finished _ _)]
    show finCount (es.foldl applyPropEntry st).events = finCount st.events
    rw [foldl_applyPropEntry_events]

theorem echoFallback_events (st : ExecState) (m : Option Msg) :
    (echoFallback st m).events = st.events := by
  simp only [echoFallback]
  repeat' split
  all_goals rfl

theorem dispatch_finCount (env : Env) (i : Nat) (cmd : Cmd) (rawStr : String)
    (st : ExecState) :
    finCount (dispatch env i cmd rawStr st).1.events = finCount st.events := by
  unfold dispatch
  rcases heo : cmd.execute_on with _ | eo
  · simp [finCount_emit_false, fatalEvent_finished]
  · by_cases h1 : eo = "lxc"
    · subst h1
      simp only [if_pos rfl]
      rcases hv : lxcVmId st with _ | v
      · simp [finCount_emit_false, fatalEvent_finished]
      · rcases hL : runOnLxc env i v (replaceVars st rawStr) cmd st with ⟨st1, r⟩
        have h := runOnLxc_finCount env i v (replaceVars st rawStr) cmd st
        rw [hL] at h
        simp only at h
        cases r <;> simp [hL, h]
    · by_cases h2 : eo = "ve"
      · subst h2
        simp only [if_neg h1, if_pos rfl]
        rcases hV : runOnVeHost env i (replaceVars st rawStr) cmd none st with ⟨st1, r⟩
        have h := runOnVeHost_finCount env i (replaceVars st rawStr) cmd none st
        rw [hV] at h
        simp only at h
        cases r <;> simp [hV, h]
      · simp only [if_neg h1, if_neg h2]
        by_cases h3 : startsWithStr eo "host:" = true
        · simp only [h3, if_pos]
          rcases hH : executeOnHost env i ((splitStr ":" eo).getD 1 "") rawStr cmd st
              with ⟨st1, r⟩
          have h := executeOnHost_finCount env i ((splitStr ":" eo).getD 1 "") rawStr cmd st
          rw [hH] at h
          simp only at h
          cases r <;> simp [hH, h, finCount_emit_false, fatalEvent_finished]
        · simp only [Bool.not_eq_true] at h3
          simp [h3, finCount_emit_false, fatalEvent_finished]

theorem stepBody_finCount (env : Env) (i : Nat) (cmd : Cmd) (st : ExecState) :
    finCount (stepBody env i cmd st).1.events = finCount st.events := by
  unfold stepBody
  by_cases hs : isSkippedCmd cmd = true
  · simp [hs, ExecState.emit, finCount, List.countP_append, skipEvent]
  · simp only [Bool.not_eq_true] at hs
    rcases hpp : cmd.properties with _ | p
    · simp only [hs, hpp, Bool.false_eq_true, if_false]
      rcases hr : getRawStr env cmd with _ | e | rawStr
      · simp
      · simp
      · rcases hd : dispatch env i cmd rawStr st with ⟨st1, r⟩
        have h := dispatch_finCount env i cmd rawStr st
        rw [hd] at h
        simp only at h
        cases r <;> simp [hd, h, echoFallback_events]
    · have h := handleProps_finCount cmd p st
      simp only [hs, hpp, Bool.false_eq_true, if_false]
      exact h

theorem runStep_finCount (env : Env) (i : Nat) (cmd : Cmd) (st : ExecState)
    (rc : Option Restart) :
    finCount (runStep env i cmd st rc).1.events = finCount st.events := by
  unfold runStep
  rcases hb : stepBody env i cmd { st with spawnInStep := 0 } with ⟨st1, ex⟩
  have h := stepBody_finCount env i cmd { st with spawnInStep := 0 }
  rw [hb] at h
  simp only at h
  have h0 : finCount ({ st with spawnInStep := 0 } : ExecState).events = finCount st.events := rfl
  rw [h0] at h
  cases ex <;> simp [hb, h, finCount_emit_false, fatalEvent_finished]

theorem runLoop_finCount (env : Env) :
    ∀ (i : Nat) (cs : List Cmd) (st : ExecState) (rc : Option Restart),
      finCount (runLoop env i cs st rc).1.events = finCount st.events := by
  intro i cs
  induction cs generalizing i with
  | nil => intro st rc; rfl
  | cons c cs ih =>
    intro st rc
    unfold runLoop
    rcases hs : runStep env i c st rc with ⟨st1, rc1, brk⟩
    have h := runStep_finCount env i c st rc
    rw [hs] at h
    simp only at h
    cases brk with
    | true => simpa [hs] using h
    | false => simp only [hs]; rw [ih (i + 1) st1 rc1, h]

theorem handleProps_cont (cmd : Cmd) (p : Props) (st : ExecState) :
    (handleProps cmd p st).2 = StepExit.cont := by
  rcases p with e | es
  · simp only [handleProps]
    repeat' split
    all_goals rfl
  · rfl

theorem stepBody_props_cont (env : Env) (j : Nat) (cmd : Cmd) (st : ExecState)
    (h : cmd.properties.isSome = true ∨ isSkippedCmd cmd = true) :
    (stepBody env j cmd st).2 = StepExit.cont := by
  unfold stepBody
  by_cases hs : isSkippedCmd cmd = true
  · simp [hs]
  · simp only [Bool.not_eq_true] at hs
    rcases h with h | h
    · rcases hp : cmd.properties with _ | p
      · rw [hp] at h; simp at h
      · simp only [hs, Bool.false_eq_true, if_false, hp]
        exact handleProps_cont cmd p st
    · rw [h] at hs; simp at hs

/-- **C8, amended.**  Exactly one `Completed` event is emitted when — and
only when — the run's final computed checkpoint covers the last step index
(`completedFlag`), and the terminal container context is signalled exactly
when that holds **and** the run is fresh (no resume checkpoint was passed
in).  Properties steps and skipped steps never update the checkpoint, which
is why a run whose last step is one of them completes every step yet emits
no `Completed` event (see the counterexample). -/
theorem c8_completed_semantics (env : Env) (cmds : List Cmd) (st0 : ExecState)
    (ri : Option Restart) :
    finCount (runModel env cmds st0 ri).events =
      finCount st0.events +
        (if completedFlag cmds (runModel env cmds st0 ri).restart then 1 else 0) ∧
    (runModel env cmds st0 ri).finishedCtx.isSome =
      (completedFlag cmds (runModel env cmds st0 ri).restart && ri.isNone) ∧
    (∀ j cmd st rc, cmd.properties.isSome = true ∨ isSkippedCmd cmd = true →
      (runStep env j cmd st rc).2.1 = rc) := by
  have step3 : ∀ (j : Nat) (cmd : Cmd) (st : ExecState) (rc : Option Restart),
      cmd.properties.isSome = true ∨ isSkippedCmd cmd = true →
      (runStep env j cmd st rc).2.1 = rc := by
    intro j cmd st rc h
    unfold runStep
    rcases hb : stepBody env j cmd { st with spawnInStep := 0 } with ⟨st1, ex⟩
    have hc := stepBody_props_cont env j cmd { st with spawnInStep := 0 } h
    rw [hb] at hc
    simp only at hc
    subst hc
    simp
  refine ⟨?_, ?_, step3⟩
  · cases ri with
    | none =>
      simp only [runModel]
      rcases hl : runLoop env 0 (List.drop 0 cmds) st0 none with ⟨st2, rc⟩
      have h2 : finCount st2.events = finCount st0.events := by
        have h := runLoop_finCount env 0 (List.drop 0 cmds) st0 none
        rw [hl] at h
        simpa using h
      by_cases hf : completedFlag cmds rc = true
      · simp only [finCount] at h2
        simp [hl, hf, ExecState.emit, finCount, List.countP_append, completedEvent, h2]
      · simp only [Bool.not_eq_true] at hf
        simp [hl, hf, h2]
    | some r =>
      simp only [runModel]
      rcases hl : runLoop env (r.lastSuccessfull + 1).toNat
          (List.drop (r.lastSuccessfull + 1).toNat cmds)
          { st0 with inputs := loadScope r.inputs, outputs := loadScope r.outputs,
                     defaults := loadScope r.defaults } none with ⟨st2, rc⟩
      have h2 : finCount st2.events = finCount st0.events := by
        have h := runLoop_finCount env (r.lastSuccessfull + 1).toNat
          (List.drop (r.lastSuccessfull + 1).toNat cmds)
          { st0 with inputs := loadScope r.inputs, outputs := loadScope r.outputs,
                     defaults := loadScope r.defaults } none
        rw [hl] at h
        simpa using h
      by_cases hf : completedFlag cmds rc = true
      · simp only [finCount] at h2
        simp [hl, hf, ExecState.emit, finCount, List.countP_append, completedEvent, h2]
      · simp only [Bool.not_eq_true] at hf
        simp [hl, hf, h2]
  · cases ri with
    | none =>
      simp only [runModel]
      rcases hl : runLoop env 0 (List.drop 0 cmds) st0 none with ⟨st2, rc⟩
      by_cases hf : completedFlag cmds rc = true
      · simp [hl, hf]
      · simp only [Bool.not_eq_true] at hf
        simp [hl, hf]
    | some r =>
      simp only [runModel]
      rcases hl : runLoop env (r.lastSuccessfull + 1).toNat
          (List.drop (r.lastSuccessfull + 1).toNat cmds)
          { st0 with inputs := loadScope r.inputs, outputs := loadScope r.outputs,
                     defaults := loadScope r.defaults } none with ⟨st2, rc⟩
      by_cases hf : completedFlag cmds rc = true
      · simp [hl, hf]
      · simp only [Bool.not_eq_true] at hf
        simp [hl, hf]

/-- Witness for C8's amended theorem: a properties step leaves the
checkpoint variable untouched. -/
theorem c8_completed_semantics_witness :
    (runStep okEnv 5 setxProp (initState [] [])
        (some { vm_id := none, lastSuccessfull := 0, inputs := [], outputs := [],
                defaults := [] })).2.1 =
      some { vm_id := none, lastSuccessfull := 0, inputs := [], outputs := [],
             defaults := [] } := by
  have h := (c8_completed_semantics okEnv [] (initState [] []) none).2.2 5 setxProp
    (initState [] [])
    (some { vm_id := none, lastSuccessfull := 0, inputs := [], outputs := [],
            defaults := [] }) (Or.inl rfl)
  exact h
